import Mathlib

/-!
Shallow embedding of `add_local_modules.py`: a script that scans the `local/`
directory for `*.zip` files, extracts a module id from `module.prop` inside
each archive, and shells out to `cli.py track --add` for each valid archive.

Strings are Lean `String`s; the Python string operations used by the script
(`str.strip`, `str.splitlines`, `str.startswith`, `str.split("=", 1)`) are
modelled character-by-character below.  Archive access is modelled by
`ZipAccess`: either the open itself raises (`corrupt`, any exception caught by
the `try` in `extract_module_id`) or it yields a list of entries, where each
entry's decode-as-UTF-8 outcome is an `Except` (decode failure is also caught
by the same `try`).  The subprocess result for each file is part of the world
(`ZipFile.outcome`), since the external tool's behaviour is an input.
-/

/-- Python `str.strip()` whitespace, restricted to the ASCII whitespace the
script can meet in practice. -/
def pyIsSpace (c : Char) : Bool :=
  c = ' ' || c = '\t' || c = '\n' || c = '\x0d' || c = '\x0b' || c = '\x0c'

/-- Python `str.strip()` on the underlying character list. -/
def stripChars (cs : List Char) : List Char :=
  ((cs.dropWhile pyIsSpace).reverse.dropWhile pyIsSpace).reverse

/-- Python `str.strip()`. -/
def pyStrip (s : String) : String :=
  ⟨stripChars s.data⟩

/-- Python `str.startswith(pre)`. -/
def pyStartswith (s pre : String) : Bool :=
  List.isPrefixOf pre.data s.data

/-- Python `line.split("=", 1)[1]`: everything after the first `=`.  The
script only evaluates this under a `startswith("id=")` guard, so a first `=`
always exists there. -/
def afterEq (s : String) : String :=
  ⟨(s.data.dropWhile (fun c => c != '=')).drop 1⟩

/-- Line-boundary characters of Python `str.splitlines` that are a single
character (`\r\n` is handled as a pair in `splitlinesAux`). -/
def isLineBoundary (c : Char) : Bool :=
  c = '\n' || c = '\x0b' || c = '\x0c' || c = '\x1c' || c = '\x1d' ||
  c = '\x1e' || c = '\x85' || c = '\u2028' || c = '\u2029'

/-- Worker for Python `str.splitlines`: accumulates the current line
(reversed) and splits at `\r\n`, `\r` and the single-character boundaries. -/
def splitlinesAux : List Char → List Char → List String
  | [], [] => []
  | [], acc => [⟨acc.reverse⟩]
  | '\x0d' :: '\n' :: rest, acc => (⟨acc.reverse⟩ : String) :: splitlinesAux rest []
  | '\x0d' :: rest, acc => (⟨acc.reverse⟩ : String) :: splitlinesAux rest []
  | c :: rest, acc =>
    if isLineBoundary c then (⟨acc.reverse⟩ : String) :: splitlinesAux rest []
    else splitlinesAux rest (c :: acc)

/-- Python `str.splitlines()`. -/
def pySplitlines (s : String) : List String :=
  splitlinesAux s.data []

/-- Python `" ".join(cmd)`. -/
def joinSpace : List String → String
  | [] => ""
  | [s] => s
  | s :: rest => s ++ " " ++ joinSpace rest

deriving instance DecidableEq for Except

/-- One entry of a zip archive: its name and the outcome of reading it and
decoding it as UTF-8 (`Except.error` models a decode exception). -/
structure ZipEntry where
  name : String
  text : Except String String
deriving DecidableEq

/-- Outcome of `ZipFile(zip_path, "r")`: either opening raises (corrupt
archive, caught by the extractor) or the archive yields its entries. -/
inductive ZipAccess where
  | corrupt (msg : String)
  | entries (es : List ZipEntry)
deriving DecidableEq

/-- `zip_file.namelist()`. -/
def namelist (es : List ZipEntry) : List String :=
  es.map (fun e => e.name)

def updaterScriptPath : String := "META-INF/com/google/android/updater-script"

def updateBinaryPath : String := "META-INF/com/google/android/update-binary"

def modulePropPath : String := "module.prop"

/-- `zip_file.read(name).decode("utf-8")`: the named entry's decode outcome;
a missing name models the `KeyError` the zipfile library would raise. -/
def readEntry (es : List ZipEntry) (name : String) : Except String String :=
  match es.find? (fun e => e.name == name) with
  | some e => e.text
  | none => Except.error ("KeyError: " ++ name)

/-- Lines 39-44 of the script: scan the stripped lines of `module.prop`; on
the first stripped line starting with `id=` whose value after the first `=`
strips to something non-empty, return that value; otherwise keep scanning. -/
def findModuleId : List String → Option String
  | [] => none
  | line :: rest =>
    let l := pyStrip line
    if pyStartswith l "id=" then
      let module_id := pyStrip (afterEq l)
      if module_id != "" then some module_id else findModuleId rest
    else
      findModuleId rest

/-- `extract_module_id` (lines 15-51): the returned module id, `none` for
every warning/error path. -/
def extract_module_id (z : ZipAccess) : Option String :=
  match z with
  | ZipAccess.corrupt _ => none
  | ZipAccess.entries es =>
    if !(namelist es).contains updaterScriptPath
        || !(namelist es).contains updateBinaryPath then
      none
    else if !(namelist es).contains modulePropPath then
      none
    else
      match readEntry es modulePropPath with
      | Except.error _ => none
      | Except.ok module_prop => findModuleId (pySplitlines module_prop)

/-- The console lines `extract_module_id` prints for the archive named
`zipname`, mirroring the same branches as the returned value. -/
def extract_warnings (zipname : String) (z : ZipAccess) : List String :=
  match z with
  | ZipAccess.corrupt e => ["Error reading " ++ zipname ++ ": " ++ e]
  | ZipAccess.entries es =>
    if !(namelist es).contains updaterScriptPath
        || !(namelist es).contains updateBinaryPath then
      ["Warning: " ++ zipname ++
        " is not a valid Magisk module (missing updater-script or update-binary)"]
    else if !(namelist es).contains modulePropPath then
      ["Warning: " ++ zipname ++ " does not contain module.prop"]
    else
      match readEntry es modulePropPath with
      | Except.error e => ["Error reading " ++ zipname ++ ": " ++ e]
      | Except.ok module_prop =>
        match findModuleId (pySplitlines module_prop) with
        | some _ => []
        | none =>
          ["Warning: Could not find \x27id=\x27 in module.prop of " ++ zipname]

/-- Result of a completed `subprocess.run`: exit code and captured stdio. -/
structure SubResult where
  returncode : Int
  stdout : String
  stderr : String
deriving DecidableEq

/-- One directory entry of `local/` as the script can observe it: its name,
what opening it as a zip archive yields, and what running the external
registrar for it would yield (`Except.error` models an exception raised by
`subprocess.run` itself, e.g. a missing interpreter). -/
structure ZipFile where
  name : String
  access : ZipAccess
  outcome : Except String SubResult
deriving DecidableEq

/-- The world the script runs against: `sys.executable`, whether `local/`
exists, and the entries of `local/` in filesystem enumeration order. -/
structure World where
  pyexe : String
  localExists : Bool
  localFiles : List ZipFile
deriving DecidableEq

/-- The argument vector `cmd` built by `add_track` (lines 61-66). -/
def track_cmd (pyexe module_id zip_filename : String) : List String :=
  [pyexe, "cli.py", "track", "--add",
   "id=" ++ module_id,
   "update_to=" ++ zip_filename,
   "changelog="]

/-- The lines `add_track` prints after `subprocess.run` (lines 70-85):
success/failure report plus any non-empty captured streams, or the caught
launch exception. -/
def add_track_report (module_id : String) (outcome : Except String SubResult) :
    List String :=
  match outcome with
  | Except.ok r =>
    if r.returncode = 0 then
      ["Successfully added track for " ++ module_id] ++
        (if pyStrip r.stdout != "" then ["Output: " ++ pyStrip r.stdout] else [])
    else
      ["Failed to add track for " ++ module_id] ++
        (if pyStrip r.stderr != "" then ["Error: " ++ pyStrip r.stderr] else []) ++
        (if pyStrip r.stdout != "" then ["Output: " ++ pyStrip r.stdout] else [])
  | Except.error e => ["Error executing command for " ++ module_id ++ ": " ++ e]

/-- Console lines produced by one iteration of the loop in `main`
(lines 106-116), including the lines printed inside `extract_module_id` and
`add_track`.  The leading `""` models the `\n` in `print(f"\nProcessing ...")`. -/
def fileLog (pyexe : String) (f : ZipFile) : List String :=
  ["", "Processing " ++ f.name ++ "..."] ++
  extract_warnings f.name f.access ++
  (match extract_module_id f.access with
   | some module_id =>
     ["Found module ID: " ++ module_id,
      "Executing: " ++ joinSpace (track_cmd pyexe module_id f.name)] ++
     add_track_report module_id f.outcome
   | none => ["Skipping " ++ f.name ++ " - could not extract module ID"])

/-- Accumulated effect of the loop in `main`: console lines, the registrar
invocations issued (in order), and the value of `added_count`. -/
structure LoopResult where
  output : List String
  calls : List (List String)
  added : Nat
deriving DecidableEq

/-- The loop of `main` (lines 106-116) over the scanned files. -/
def runFiles (pyexe : String) : List ZipFile → LoopResult
  | [] => { output := [], calls := [], added := 0 }
  | f :: rest =>
    let r := runFiles pyexe rest
    match extract_module_id f.access with
    | some module_id =>
      { output := fileLog pyexe f ++ r.output,
        calls := track_cmd pyexe module_id f.name :: r.calls,
        added := r.added + 1 }
    | none =>
      { output := fileLog pyexe f ++ r.output,
        calls := r.calls,
        added := r.added }

/-- Star-suffix matcher: `globTail lits cs` decides whether the glob pattern
`*<lits>` matches `cs`, i.e. whether some suffix of `cs` equals `lits`
(fnmatch gives `*` no special treatment of leading dots under `pathlib`). -/
def globTail (lits : List Char) : List Char → Bool
  | [] => lits == []
  | c :: cs => lits == c :: cs || globTail lits cs

/-- `local_dir.glob("*.zip")` name filter: the pattern `*.zip` as fnmatch
compiles it (case-sensitive on a POSIX filesystem). -/
def globZipMatch (n : String) : Bool :=
  globTail ".zip".data n.data

/-- `zip_files = list(local_dir.glob("*.zip"))` (line 96). -/
def selectedZips (w : World) : List ZipFile :=
  w.localFiles.filter (fun f => globZipMatch f.name)

/-- Overall observable result of one run of `main`: process exit code,
console lines in order, registrar invocations in order, and the final
values of the internal counters (`len(zip_files)` and `added_count`). -/
structure RunResult where
  exitCode : Nat
  output : List String
  calls : List (List String)
  processed : Nat
  added : Nat
deriving DecidableEq

/-- `main` (lines 87-124). -/
def mainRun (w : World) : RunResult :=
  if !w.localExists then
    { exitCode := 1, output := ["Error: local/ directory does not exist"],
      calls := [], processed := 0, added := 0 }
  else
    let zip_files := selectedZips w
    if zip_files.isEmpty then
      { exitCode := 0, output := ["No .zip files found in local/ directory"],
        calls := [], processed := 0, added := 0 }
    else
      let r := runFiles w.pyexe zip_files
      { exitCode := 0,
        output :=
          ["Found " ++ toString zip_files.length ++ " zip files in local/ directory"] ++
          r.output ++
          ["", "Processed " ++ toString zip_files.length ++ " files, added " ++
            toString r.added ++ " tracks"] ++
          (if r.added > 0 then
            ["", "To sync the modules, run: python cli.py sync",
             "To generate the index, run: python cli.py index"]
           else []),
        calls := r.calls,
        processed := zip_files.length,
        added := r.added }

/-- Is `c` a registrar invocation whose `update_to` argument names
`filename`?  (Element 5 of every `track_cmd` is the `update_to` argument.) -/
def isCallFor (filename : String) (c : List String) : Bool :=
  c.get? 5 == some ("update_to=" ++ filename)

/-- The registrar invocations of a run whose `update_to` argument names
`filename`. -/
def callsFor (r : RunResult) (filename : String) : List (List String) :=
  r.calls.filter (isCallFor filename)

/-- The spec's sentence as written, for comparison with `findModuleId`: each
line is trimmed, the FIRST line starting with `id=` yields the identifier,
namely the substring after the first `=`, trimmed. -/
def specFirstIdOfLines (lines : List String) : Option String :=
  ((lines.map pyStrip).find? (fun l => pyStartswith l "id=")).map
    (fun l => pyStrip (afterEq l))

/-- The spec's extraction outcome as written: the identifier of the first
`id=` line, with an identifier that is empty after trimming treated as
absent. -/
def specExtractIdOfLines (lines : List String) : Option String :=
  match specFirstIdOfLines lines with
  | some m => if m = "" then none else some m
  | none => none

/-- The amended reading: the first trimmed line starting with `id=` WHOSE
VALUE after the first `=` is non-empty after trimming yields the identifier;
`id=` lines with an empty value are passed over. -/
def amendedFirstIdOfLines (lines : List String) : Option String :=
  ((lines.map pyStrip).find? (fun l => pyStartswith l "id=" && pyStrip (afterEq l) != "")).map
    (fun l => pyStrip (afterEq l))

/- Concrete worlds used by the witness theorems. -/

def okRun : Except String SubResult := Except.ok ⟨0, "", ""⟩

def goodEntries : List ZipEntry :=
  [⟨updaterScriptPath, Except.ok "#MAGISK"⟩,
   ⟨updateBinaryPath, Except.ok "#!/sbin/sh"⟩,
   ⟨modulePropPath, Except.ok "id=com.example.mod\nname=Example Module\nversion=v1\n"⟩]

def goodZip : ZipFile := ⟨"m.zip", ZipAccess.entries goodEntries, okRun⟩

/-- An archive with no marker entries at all. -/
def noMarkerZip : ZipFile :=
  ⟨"bad.zip",
   ZipAccess.entries [⟨modulePropPath, Except.ok "id=com.example.bad\n"⟩],
   okRun⟩

/-- Markers present but no `module.prop`. -/
def noPropZip : ZipFile :=
  ⟨"noprop.zip",
   ZipAccess.entries
     [⟨updaterScriptPath, Except.ok "#MAGISK"⟩,
      ⟨updateBinaryPath, Except.ok "#!/sbin/sh"⟩],
   okRun⟩

/-- Markers present, `module.prop` whose only `id=` line has a blank value. -/
def emptyIdZip : ZipFile :=
  ⟨"emptyid.zip",
   ZipAccess.entries
     [⟨updaterScriptPath, Except.ok "#MAGISK"⟩,
      ⟨updateBinaryPath, Except.ok "#!/sbin/sh"⟩,
      ⟨modulePropPath, Except.ok "id=  \nname=Blank\n"⟩],
   okRun⟩

/-- An archive whose open raises (corrupt zip). -/
def corruptZip : ZipFile :=
  ⟨"corrupt.zip", ZipAccess.corrupt "File is not a zip file", okRun⟩

/-- An entry in `local/` whose extension differs only in case. -/
def upperCaseZip : ZipFile :=
  ⟨"shout.ZIP", ZipAccess.entries goodEntries, okRun⟩

def worldGood : World := ⟨"python", true, [goodZip]⟩

def worldNoDir : World := ⟨"python", false, [goodZip]⟩

def worldEmptyDir : World := ⟨"python", true, []⟩

def worldMixed : World :=
  ⟨"python", true, [goodZip, noMarkerZip, noPropZip, emptyIdZip, corruptZip, upperCaseZip]⟩

example : pySplitlines "id= \nid=real\n" = ["id= ", "id=real"] := by rfl

example :
    (mainRun worldGood).calls =
      [["python", "cli.py", "track", "--add", "id=com.example.mod",
        "update_to=m.zip", "changelog="]] := by rfl

example : (mainRun worldMixed).added = 1 := by rfl

example : (mainRun worldMixed).processed = 5 := by rfl

example :
    "Processed 5 files, added 1 tracks" ∈ (mainRun worldMixed).output := by decide

example : (mainRun worldNoDir).exitCode = 1 := by rfl

example : (mainRun worldEmptyDir).output = ["No .zip files found in local/ directory"] := by rfl

example : globZipMatch "shout.ZIP" = false := by decide

example : globZipMatch ".hidden.zip" = true := by decide

example : findModuleId ["id= ", "id=real"] = some "real" := by rfl

example : findModuleId ["id=  "] = none := by rfl

example : pyStrip "  a b\x09 " = "a b" := by rfl

example : afterEq "id=a=b" = "a=b" := by rfl

/-! ## Helper lemmas -/

theorem contains_iff_mem {l : List String} {s : String} :
    l.contains s = true ↔ s ∈ l := by
  simp [List.elem_iff, List.contains]

theorem str_append_cancel {s a b : String} (h : s ++ a = s ++ b) : a = b := by
  have h2 := congrArg String.data h
  simp [String.data_append] at h2
  exact String.ext h2

theorem readEntry_ok_contains {es : List ZipEntry} {name t : String}
    (h : readEntry es name = Except.ok t) :
    (namelist es).contains name = true := by
  unfold readEntry at h
  cases hf : es.find? (fun e => e.name == name) with
  | none => rw [hf] at h; exact absurd h (by simp)
  | some e =>
    rw [hf] at h
    have hbeq := List.find?_some hf
    have hmem : e ∈ es := List.mem_of_find?_eq_some hf
    refine contains_iff_mem.mpr ?_
    have hname : e.name = name := by simpa using hbeq
    exact hname ▸ List.mem_map_of_mem (fun e => e.name) hmem

theorem findModuleId_eq_amended (lines : List String) :
    findModuleId lines = amendedFirstIdOfLines lines := by
  induction lines with
  | nil => rfl
  | cons line rest ih =>
    unfold findModuleId amendedFirstIdOfLines
    by_cases h1 : pyStartswith (pyStrip line) "id=" = true
    · by_cases h2 : pyStrip (afterEq (pyStrip line)) = ""
      · simp only [List.map_cons, List.find?_cons, h1, h2]
        simp only [h1, h2] at *
        simpa [amendedFirstIdOfLines] using ih
      · have hb : (pyStrip (afterEq (pyStrip line)) != "") = true := by
          simpa [bne_iff_ne] using h2
        simp only [List.map_cons, List.find?_cons, h1]
        simp [h1, hb]
    · simp only [List.map_cons, List.find?_cons]
      simp [h1]
      simpa [amendedFirstIdOfLines] using ih

theorem findModuleId_none_of_all_empty {lines : List String}
    (h : ∀ l ∈ lines, pyStartswith (pyStrip l) "id=" = true →
         pyStrip (afterEq (pyStrip l)) = "") :
    findModuleId lines = none := by
  induction lines with
  | nil => rfl
  | cons line rest ih =>
    have hrest : ∀ l ∈ rest, pyStartswith (pyStrip l) "id=" = true →
        pyStrip (afterEq (pyStrip l)) = "" :=
      fun l hl => h l (List.mem_cons_of_mem _ hl)
    unfold findModuleId
    by_cases h1 : pyStartswith (pyStrip line) "id=" = true
    · have h2 := h line (List.mem_cons_self _ _) h1
      simp [h1, h2, ih hrest]
    · simp [h1, ih hrest]

theorem findModuleId_some_mem {lines : List String} {m : String}
    (h : findModuleId lines = some m) :
    m ≠ "" ∧ ∃ l ∈ lines, pyStartswith (pyStrip l) "id=" = true ∧
      pyStrip (afterEq (pyStrip l)) = m := by
  induction lines with
  | nil => exact absurd h (by simp [findModuleId])
  | cons line rest ih =>
    unfold findModuleId at h
    by_cases h1 : pyStartswith (pyStrip line) "id=" = true
    · by_cases h2 : pyStrip (afterEq (pyStrip line)) = ""
      · simp only [h1, if_true, h2] at h
        simp at h
        obtain ⟨hm, l, hl, hs, hv⟩ := ih h
        exact ⟨hm, l, List.mem_cons_of_mem _ hl, hs, hv⟩
      · simp only [h1, if_true] at h
        rw [if_pos (by simpa [bne_iff_ne] using h2)] at h
        obtain rfl : pyStrip (afterEq (pyStrip line)) = m := by simpa using h
        exact ⟨h2, line, List.mem_cons_self _ _, h1, rfl⟩
    · simp only [h1, if_false] at h
      obtain ⟨hm, l, hl, hs, hv⟩ := ih h
      exact ⟨hm, l, List.mem_cons_of_mem _ hl, hs, hv⟩

theorem bool_eq_false {b : Bool} (h : ¬ b = true) : b = false := by
  cases b
  · rfl
  · exact absurd rfl h

theorem extract_module_id_entries (es : List ZipEntry) :
    extract_module_id (ZipAccess.entries es) =
      (if !(namelist es).contains updaterScriptPath
          || !(namelist es).contains updateBinaryPath then
        none
      else if !(namelist es).contains modulePropPath then
        none
      else
        match readEntry es modulePropPath with
        | Except.error _ => none
        | Except.ok module_prop => findModuleId (pySplitlines module_prop)) := rfl

theorem extract_some_decomp {z : ZipAccess} {m : String}
    (h : extract_module_id z = some m) :
    ∃ es module_prop, z = ZipAccess.entries es ∧
      (namelist es).contains updaterScriptPath = true ∧
      (namelist es).contains updateBinaryPath = true ∧
      (namelist es).contains modulePropPath = true ∧
      readEntry es modulePropPath = Except.ok module_prop ∧
      findModuleId (pySplitlines module_prop) = some m := by
  cases z with
  | corrupt e => exact absurd h (by simp [extract_module_id])
  | entries es =>
    rw [extract_module_id_entries] at h
    by_cases h1 : (namelist es).contains updaterScriptPath = true
    · by_cases h2 : (namelist es).contains updateBinaryPath = true
      · by_cases h3 : (namelist es).contains modulePropPath = true
        · rw [h1, h2, h3] at h
          rw [if_neg (by simp), if_neg (by simp)] at h
          cases hr : readEntry es modulePropPath with
          | error e => rw [hr] at h; exact absurd h (by simp)
          | ok module_prop =>
            rw [hr] at h
            exact ⟨es, module_prop, rfl, h1, h2, h3, hr, h⟩
        · rw [h1, h2, bool_eq_false h3] at h
          rw [if_neg (by simp), if_pos (by simp)] at h
          exact absurd h (by simp)
      · rw [bool_eq_false h2] at h
        rw [if_pos (by simp)] at h
        exact absurd h (by simp)
    · rw [bool_eq_false h1] at h
      rw [if_pos (by simp)] at h
      exact absurd h (by simp)

theorem extract_entries_none_cases {es : List ZipEntry}
    (h : (namelist es).contains updaterScriptPath = false ∨
         (namelist es).contains updateBinaryPath = false ∨
         (namelist es).contains modulePropPath = false) :
    extract_module_id (ZipAccess.entries es) = none := by
  rw [extract_module_id_entries]
  rcases h with h | h | h
  · rw [h, if_pos (by simp)]
  · rw [h, if_pos (by simp)]
  · by_cases h1 : (!(namelist es).contains updaterScriptPath
        || !(namelist es).contains updateBinaryPath) = true
    · rw [if_pos h1]
    · rw [if_neg h1, h, if_pos (by simp)]

theorem runFiles_calls_eq (p : String) (fs : List ZipFile) :
    (runFiles p fs).calls =
      fs.filterMap (fun f => (extract_module_id f.access).map
        (fun m => track_cmd p m f.name)) := by
  induction fs with
  | nil => rfl
  | cons f rest ih =>
    cases h : extract_module_id f.access with
    | none => simp [runFiles, h, ih]
    | some m => simp [runFiles, h, ih]

theorem runFiles_added_eq_countP (p : String) (fs : List ZipFile) :
    (runFiles p fs).added =
      fs.countP (fun f => (extract_module_id f.access).isSome) := by
  induction fs with
  | nil => rfl
  | cons f rest ih =>
    cases h : extract_module_id f.access with
    | none => simp [runFiles, h, ih, List.countP_cons]
    | some m => simp [runFiles, h, ih, List.countP_cons]

theorem runFiles_added_eq_length (p : String) (fs : List ZipFile) :
    (runFiles p fs).added = (runFiles p fs).calls.length := by
  induction fs with
  | nil => rfl
  | cons f rest ih =>
    cases h : extract_module_id f.access with
    | none => simp [runFiles, h, ih]
    | some m => simp [runFiles, h, ih]

theorem track_cmd_get5 (p m fn : String) :
    (track_cmd p m fn).get? 5 = some ("update_to=" ++ fn) := rfl

theorem isCallFor_track_cmd {n p m fn : String} :
    isCallFor n (track_cmd p m fn) = true ↔ fn = n := by
  unfold isCallFor
  rw [track_cmd_get5]
  constructor
  · intro h
    have h2 : "update_to=" ++ fn = "update_to=" ++ n := by simpa using h
    exact str_append_cancel h2
  · intro h
    subst h
    simp

theorem runFiles_filter_nil (p : String) (fs : List ZipFile) (n : String)
    (h : ∀ f ∈ fs, f.name ≠ n) :
    (runFiles p fs).calls.filter (isCallFor n) = [] := by
  induction fs with
  | nil => rfl
  | cons f rest ih =>
    have hf : f.name ≠ n := h f (List.mem_cons_self _ _)
    have hrest : ∀ g ∈ rest, g.name ≠ n :=
      fun g hg => h g (List.mem_cons_of_mem _ hg)
    cases hx : extract_module_id f.access with
    | none => simp only [runFiles, hx]; exact ih hrest
    | some m =>
      have hcall : isCallFor n (track_cmd p m f.name) = false := by
        rw [Bool.eq_false_iff]
        intro hc
        exact hf (isCallFor_track_cmd.mp hc)
      simp only [runFiles, hx, List.filter_cons, hcall]
      exact ih hrest

theorem runFiles_filter_of_mem (p : String) (fs : List ZipFile) (f : ZipFile)
    (hmem : f ∈ fs) (hnodup : (fs.map ZipFile.name).Nodup) :
    (runFiles p fs).calls.filter (isCallFor f.name) =
      (match extract_module_id f.access with
       | some m => [track_cmd p m f.name]
       | none => []) := by
  induction fs with
  | nil => cases hmem
  | cons g rest ih =>
    rw [List.map_cons, List.nodup_cons] at hnodup
    obtain ⟨hgnotin, hnodup_rest⟩ := hnodup
    rcases List.mem_cons.mp hmem with rfl | hmem_rest
    · have hrest : ∀ h ∈ rest, h.name ≠ f.name := by
        intro h hh hcontra
        exact hgnotin (hcontra ▸ List.mem_map_of_mem ZipFile.name hh)
      cases hx : extract_module_id f.access with
      | none =>
        simp only [runFiles, hx]
        exact runFiles_filter_nil p rest f.name hrest
      | some m =>
        have hcall : isCallFor f.name (track_cmd p m f.name) = true :=
          isCallFor_track_cmd.mpr rfl
        simp only [runFiles, hx, List.filter_cons, hcall, if_true]
        rw [runFiles_filter_nil p rest f.name hrest]
    · have hgname : g.name ≠ f.name := by
        intro hcontra
        exact hgnotin (hcontra ▸ List.mem_map_of_mem ZipFile.name hmem_rest)
      cases hx : extract_module_id g.access with
      | none =>
        simp only [runFiles, hx]
        exact ih hmem_rest hnodup_rest
      | some m =>
        have hcall : isCallFor f.name (track_cmd p m g.name) = false := by
          rw [Bool.eq_false_iff]
          intro hc
          exact hgname (isCallFor_track_cmd.mp hc)
        simp only [runFiles, hx, List.filter_cons, hcall]
        exact ih hmem_rest hnodup_rest

theorem mainRun_missing_dir {w : World} (h : w.localExists = false) :
    mainRun w =
      { exitCode := 1, output := ["Error: local/ directory does not exist"],
        calls := [], processed := 0, added := 0 } := by
  unfold mainRun
  rw [h]
  rfl

theorem mainRun_calls_eq {w : World} (h : w.localExists = true) :
    (mainRun w).calls = (runFiles w.pyexe (selectedZips w)).calls := by
  unfold mainRun
  rw [h]
  by_cases he : (selectedZips w).isEmpty = true
  · have hnil : selectedZips w = [] := List.isEmpty_iff.mp he
    rw [if_neg (by simp), if_pos he, hnil]
    rfl
  · rw [if_neg (by simp), if_neg he]

theorem mainRun_added_eq {w : World} (h : w.localExists = true) :
    (mainRun w).added = (runFiles w.pyexe (selectedZips w)).added := by
  unfold mainRun
  rw [h]
  by_cases he : (selectedZips w).isEmpty = true
  · have hnil : selectedZips w = [] := List.isEmpty_iff.mp he
    rw [if_neg (by simp), if_pos he, hnil]
    rfl
  · rw [if_neg (by simp), if_neg he]

theorem mainRun_added_eq_length (w : World) :
    (mainRun w).added = (mainRun w).calls.length := by
  cases hw : w.localExists with
  | false => rw [mainRun_missing_dir hw]; rfl
  | true =>
    rw [mainRun_added_eq hw, mainRun_calls_eq hw]
    exact runFiles_added_eq_length w.pyexe (selectedZips w)

theorem mainRun_callsFor_of_mem {w : World} {f : ZipFile}
    (hdir : w.localExists = true)
    (hmem : f ∈ selectedZips w)
    (hnodup : ((selectedZips w).map ZipFile.name).Nodup) :
    callsFor (mainRun w) f.name =
      (match extract_module_id f.access with
       | some m => [track_cmd w.pyexe m f.name]
       | none => []) := by
  unfold callsFor
  rw [mainRun_calls_eq hdir]
  exact runFiles_filter_of_mem w.pyexe (selectedZips w) f hmem hnodup

theorem mainRun_callsFor_nil {w : World} {n : String}
    (h : ∀ g ∈ selectedZips w, g.name ≠ n) :
    callsFor (mainRun w) n = [] := by
  unfold callsFor
  cases hw : w.localExists with
  | false => rw [mainRun_missing_dir hw]; rfl
  | true =>
    rw [mainRun_calls_eq hw]
    exact runFiles_filter_nil w.pyexe (selectedZips w) n h

theorem globTail_iff (lits : List Char) (cs : List Char) :
    globTail lits cs = true ↔ lits <:+ cs := by
  induction cs with
  | nil =>
    simp only [globTail, beq_iff_eq, List.suffix_nil]
  | cons c cs ih =>
    simp only [globTail, Bool.or_eq_true, beq_iff_eq, ih, List.suffix_cons_iff]

theorem globZipMatch_iff (n : String) :
    globZipMatch n = true ↔ ".zip".data <:+ n.data := by
  exact globTail_iff ".zip".data n.data

theorem mainRun_exit_zero {w : World} (h : w.localExists = true) :
    (mainRun w).exitCode = 0 := by
  unfold mainRun
  rw [h, if_neg (by simp)]
  by_cases he : (selectedZips w).isEmpty = true
  · rw [if_pos he]
  · rw [if_neg he]

theorem extract_warnings_entries (zipname : String) (es : List ZipEntry) :
    extract_warnings zipname (ZipAccess.entries es) =
      (if !(namelist es).contains updaterScriptPath
          || !(namelist es).contains updateBinaryPath then
        ["Warning: " ++ zipname ++
          " is not a valid Magisk module (missing updater-script or update-binary)"]
      else if !(namelist es).contains modulePropPath then
        ["Warning: " ++ zipname ++ " does not contain module.prop"]
      else
        match readEntry es modulePropPath with
        | Except.error e => ["Error reading " ++ zipname ++ ": " ++ e]
        | Except.ok module_prop =>
          match findModuleId (pySplitlines module_prop) with
          | some _ => []
          | none =>
            ["Warning: Could not find \x27id=\x27 in module.prop of " ++ zipname]) := rfl

theorem mainRun_output_summary {w : World} (hdir : w.localExists = true)
    (hne : (selectedZips w).isEmpty = false) :
    ("Processed " ++ toString (selectedZips w).length ++ " files, added " ++
      toString (runFiles w.pyexe (selectedZips w)).added ++ " tracks")
      ∈ (mainRun w).output := by
  unfold mainRun
  rw [hdir, if_neg (by simp), if_neg (by simp [hne])]
  simp [List.mem_append]

/-! ## Claim theorems -/

/-- C1: for a well-formed archive (both marker entries present and a readable
`module.prop` whose scan yields an identifier), the run invokes the registrar
exactly once for that archive, with arguments `id=<identifier>`,
`update_to=<archive basename>` and the constant empty `changelog=`; and the
added-count equals the number of registrar invocations, so each registration
increments it by exactly one. -/
theorem wellformed_archive_registered_once (w : World) (f : ZipFile)
    (es : List ZipEntry) (module_prop module_id : String)
    (hdir : w.localExists = true)
    (hmem : f ∈ selectedZips w)
    (hnodup : ((selectedZips w).map ZipFile.name).Nodup)
    (hacc : f.access = ZipAccess.entries es)
    (hm1 : (namelist es).contains updaterScriptPath = true)
    (hm2 : (namelist es).contains updateBinaryPath = true)
    (hread : readEntry es modulePropPath = Except.ok module_prop)
    (hid : findModuleId (pySplitlines module_prop) = some module_id) :
    callsFor (mainRun w) f.name =
      [[w.pyexe, "cli.py", "track", "--add",
        "id=" ++ module_id, "update_to=" ++ f.name, "changelog="]] ∧
    (mainRun w).added = (mainRun w).calls.length := by
  have hprop : (namelist es).contains modulePropPath = true :=
    readEntry_ok_contains hread
  have hex : extract_module_id f.access = some module_id := by
    rw [hacc, extract_module_id_entries, hm1, hm2, hprop]
    rw [if_neg (by simp), if_neg (by simp), hread]
    exact hid
  constructor
  · rw [mainRun_callsFor_of_mem hdir hmem hnodup, hex]
    rfl
  · exact mainRun_added_eq_length w

theorem wellformed_archive_registered_once_witness :
    callsFor (mainRun worldGood) goodZip.name =
      [[worldGood.pyexe, "cli.py", "track", "--add",
        "id=" ++ "com.example.mod", "update_to=" ++ goodZip.name, "changelog="]] ∧
    (mainRun worldGood).added = (mainRun worldGood).calls.length :=
  wellformed_archive_registered_once worldGood goodZip goodEntries
    "id=com.example.mod\nname=Example Module\nversion=v1\n" "com.example.mod"
    (by rfl) (by decide) (by decide) (by rfl) (by rfl) (by rfl) (by rfl) (by rfl)

/-- C2: within one run each archive is registered at most once, and a
registration happens only if the archive carries both marker entries and its
`module.prop` has an `id` line whose value is non-empty after trimming. -/
theorem registered_at_most_once_only_if_valid (w : World) (f : ZipFile)
    (hdir : w.localExists = true)
    (hmem : f ∈ selectedZips w)
    (hnodup : ((selectedZips w).map ZipFile.name).Nodup) :
    (callsFor (mainRun w) f.name).length ≤ 1 ∧
    (callsFor (mainRun w) f.name ≠ [] →
      ∃ es module_prop module_id,
        f.access = ZipAccess.entries es ∧
        (namelist es).contains updaterScriptPath = true ∧
        (namelist es).contains updateBinaryPath = true ∧
        extract_module_id f.access = some module_id ∧
        readEntry es modulePropPath = Except.ok module_prop ∧
        module_id ≠ "" ∧
        (∃ line ∈ pySplitlines module_prop,
          pyStartswith (pyStrip line) "id=" = true ∧
          pyStrip (afterEq (pyStrip line)) = module_id)) := by
  rw [mainRun_callsFor_of_mem hdir hmem hnodup]
  cases hx : extract_module_id f.access with
  | none => exact ⟨by simp, by simp⟩
  | some m =>
    refine ⟨by simp, fun _ => ?_⟩
    obtain ⟨es, module_prop, hacc, h1, h2, _, hread, hfind⟩ := extract_some_decomp hx
    obtain ⟨hne, line, hline, hs, hv⟩ := findModuleId_some_mem hfind
    exact ⟨es, module_prop, m, hacc, h1, h2, rfl, hread, hne, line, hline, hs, hv⟩

theorem registered_at_most_once_only_if_valid_witness :
    (callsFor (mainRun worldMixed) corruptZip.name).length ≤ 1 ∧
    (callsFor (mainRun worldMixed) corruptZip.name ≠ [] →
      ∃ es module_prop module_id,
        corruptZip.access = ZipAccess.entries es ∧
        (namelist es).contains updaterScriptPath = true ∧
        (namelist es).contains updateBinaryPath = true ∧
        extract_module_id corruptZip.access = some module_id ∧
        readEntry es modulePropPath = Except.ok module_prop ∧
        module_id ≠ "" ∧
        (∃ line ∈ pySplitlines module_prop,
          pyStartswith (pyStrip line) "id=" = true ∧
          pyStrip (afterEq (pyStrip line)) = module_id)) :=
  registered_at_most_once_only_if_valid worldMixed corruptZip
    (by rfl) (by decide) (by decide)

/-- C3: the process exit status is 1 exactly when the input directory is
missing — in which case nothing is processed and only the error line is
printed — and 0 whenever the directory exists, regardless of the archives
and of the registrar outcomes recorded in the world. -/
theorem exit_one_iff_missing_dir (w : World) :
    ((mainRun w).exitCode = 1 ↔ w.localExists = false) ∧
    (w.localExists = false →
      (mainRun w).calls = [] ∧ (mainRun w).processed = 0 ∧
      (mainRun w).output = ["Error: local/ directory does not exist"]) ∧
    (w.localExists = true → (mainRun w).exitCode = 0) := by
  cases hw : w.localExists with
  | false =>
    rw [mainRun_missing_dir hw]
    refine ⟨by simp, fun _ => ⟨rfl, rfl, rfl⟩, fun h => ?_⟩
    exact Bool.noConfusion h
  | true =>
    refine ⟨?_, fun hf => ?_, fun _ => mainRun_exit_zero hw⟩
    · rw [mainRun_exit_zero hw]
      constructor
      · intro h01
        exact absurd h01 (by simp)
      · intro hf
        exact Bool.noConfusion hf
    · exact Bool.noConfusion hf

theorem exit_one_iff_missing_dir_witness :
    ((mainRun worldNoDir).exitCode = 1 ↔ worldNoDir.localExists = false) ∧
    (worldNoDir.localExists = false →
      (mainRun worldNoDir).calls = [] ∧ (mainRun worldNoDir).processed = 0 ∧
      (mainRun worldNoDir).output = ["Error: local/ directory does not exist"]) ∧
    (worldNoDir.localExists = true → (mainRun worldNoDir).exitCode = 0) :=
  exit_one_iff_missing_dir worldNoDir

/-- C4 counterexample: with zero archive files the run prints only the
"No .zip files found" line and no "Processed 0 files, added 0 tracks"
summary, so the claim fails at N = 0. -/
theorem summary_zero_files_counterexample :
    (mainRun worldEmptyDir).output = ["No .zip files found in local/ directory"] ∧
    "Processed 0 files, added 0 tracks" ∉ (mainRun worldEmptyDir).output := by
  exact ⟨by rfl, by decide⟩

/-- C4 (amended): for every run over at least one archive file, with K of the
N scanned files yielding an identifier, the summary line
"Processed N files, added K tracks" is printed and the registrar is invoked
exactly K times. -/
theorem summary_counts_valid_archives (w : World)
    (hdir : w.localExists = true)
    (hne : selectedZips w ≠ []) :
    ("Processed " ++ toString (selectedZips w).length ++ " files, added " ++
      toString ((selectedZips w).countP
        (fun f => (extract_module_id f.access).isSome)) ++ " tracks")
      ∈ (mainRun w).output ∧
    (mainRun w).calls.length =
      (selectedZips w).countP (fun f => (extract_module_id f.access).isSome) := by
  have hK := runFiles_added_eq_countP w.pyexe (selectedZips w)
  have hne2 : (selectedZips w).isEmpty = false := by
    cases he : (selectedZips w).isEmpty with
    | false => rfl
    | true => exact absurd (List.isEmpty_iff.mp he) hne
  constructor
  · have hsum := mainRun_output_summary hdir hne2
    rwa [hK] at hsum
  · rw [mainRun_calls_eq hdir, ← runFiles_added_eq_length, hK]

theorem summary_counts_valid_archives_witness :
    ("Processed " ++ toString (selectedZips worldMixed).length ++ " files, added " ++
      toString ((selectedZips worldMixed).countP
        (fun f => (extract_module_id f.access).isSome)) ++ " tracks")
      ∈ (mainRun worldMixed).output ∧
    (mainRun worldMixed).calls.length =
      (selectedZips worldMixed).countP
        (fun f => (extract_module_id f.access).isSome) :=
  summary_counts_valid_archives worldMixed (by rfl) (by decide)

/-- C5 counterexample: on `module.prop` lines `["id= ", "id=real"]` the code
returns `"real"` while the first `id=` line yields the empty identifier, so
"the first line beginning with id= yields the identifier" fails as stated. -/
theorem first_id_line_counterexample :
    findModuleId ["id= ", "id=real"] = some "real" ∧
    specFirstIdOfLines ["id= ", "id=real"] = some "" ∧
    findModuleId ["id= ", "id=real"] ≠ specExtractIdOfLines ["id= ", "id=real"] := by
  exact ⟨by rfl, by rfl, by decide⟩

/-- C5 (amended): for a readable archive with both markers present, the
extractor decodes `module.prop`, splits it into lines, and yields the value
of the first trimmed line starting with `id=` WHOSE value after the first `=`
is non-empty after trimming (empty-valued `id=` lines are passed over). -/
theorem first_nonempty_id_line_yields_identifier (es : List ZipEntry)
    (module_prop : String)
    (hm1 : (namelist es).contains updaterScriptPath = true)
    (hm2 : (namelist es).contains updateBinaryPath = true)
    (hread : readEntry es modulePropPath = Except.ok module_prop) :
    extract_module_id (ZipAccess.entries es) =
      amendedFirstIdOfLines (pySplitlines module_prop) := by
  have hprop := readEntry_ok_contains hread
  rw [extract_module_id_entries, hm1, hm2, hprop]
  rw [if_neg (by simp), if_neg (by simp), hread]
  exact findModuleId_eq_amended _

theorem first_nonempty_id_line_yields_identifier_witness :
    extract_module_id (ZipAccess.entries goodEntries) =
      amendedFirstIdOfLines
        (pySplitlines "id=com.example.mod\nname=Example Module\nversion=v1\n") :=
  first_nonempty_id_line_yields_identifier goodEntries
    "id=com.example.mod\nname=Example Module\nversion=v1\n"
    (by rfl) (by rfl) (by rfl)

/-- C6: when the only `id=` line of `module.prop` has a value that is empty
after trimming, the extractor reports no identifier, and the registrar is
never invoked for that archive. -/
theorem empty_id_value_skipped (w : World) (f : ZipFile) (es : List ZipEntry)
    (module_prop l0 : String)
    (hdir : w.localExists = true)
    (hmem : f ∈ selectedZips w)
    (hnodup : ((selectedZips w).map ZipFile.name).Nodup)
    (hacc : f.access = ZipAccess.entries es)
    (hread : readEntry es modulePropPath = Except.ok module_prop)
    (honly : (pySplitlines module_prop).filter
        (fun l => pyStartswith (pyStrip l) "id=") = [l0])
    (hempty : pyStrip (afterEq (pyStrip l0)) = "") :
    extract_module_id f.access = none ∧ callsFor (mainRun w) f.name = [] := by
  have hall : ∀ l ∈ pySplitlines module_prop,
      pyStartswith (pyStrip l) "id=" = true →
      pyStrip (afterEq (pyStrip l)) = "" := by
    intro l hl hs
    have hmemf : l ∈ (pySplitlines module_prop).filter
        (fun l => pyStartswith (pyStrip l) "id=") :=
      List.mem_filter.mpr ⟨hl, hs⟩
    rw [honly] at hmemf
    have hl0 : l = l0 := by simpa using hmemf
    rw [hl0]
    exact hempty
  have hfind : findModuleId (pySplitlines module_prop) = none :=
    findModuleId_none_of_all_empty hall
  have hex : extract_module_id f.access = none := by
    rw [hacc, extract_module_id_entries]
    by_cases h1 : (!(namelist es).contains updaterScriptPath
        || !(namelist es).contains updateBinaryPath) = true
    · rw [if_pos h1]
    · rw [if_neg h1]
      by_cases h2 : (!(namelist es).contains modulePropPath) = true
      · rw [if_pos h2]
      · rw [if_neg h2, hread]
        exact hfind
  refine ⟨hex, ?_⟩
  rw [mainRun_callsFor_of_mem hdir hmem hnodup, hex]

theorem empty_id_value_skipped_witness :
    extract_module_id emptyIdZip.access = none ∧
    callsFor (mainRun worldMixed) emptyIdZip.name = [] :=
  empty_id_value_skipped worldMixed emptyIdZip
    [⟨updaterScriptPath, Except.ok "#MAGISK"⟩,
     ⟨updateBinaryPath, Except.ok "#!/sbin/sh"⟩,
     ⟨modulePropPath, Except.ok "id=  \nname=Blank\n"⟩]
    "id=  \nname=Blank\n" "id=  "
    (by rfl) (by decide) (by decide) (by rfl) (by rfl) (by rfl) (by rfl)

/-- C7: an archive missing either marker entry yields no identifier from the
extractor and the registrar is never invoked for it. -/
theorem missing_marker_skipped (w : World) (f : ZipFile) (es : List ZipEntry)
    (hdir : w.localExists = true)
    (hmem : f ∈ selectedZips w)
    (hnodup : ((selectedZips w).map ZipFile.name).Nodup)
    (hacc : f.access = ZipAccess.entries es)
    (hmiss : (namelist es).contains updaterScriptPath = false ∨
             (namelist es).contains updateBinaryPath = false) :
    extract_module_id f.access = none ∧ callsFor (mainRun w) f.name = [] := by
  have hex : extract_module_id f.access = none := by
    rw [hacc]
    refine extract_entries_none_cases ?_
    rcases hmiss with h | h
    · exact Or.inl h
    · exact Or.inr (Or.inl h)
  refine ⟨hex, ?_⟩
  rw [mainRun_callsFor_of_mem hdir hmem hnodup, hex]

theorem missing_marker_skipped_witness :
    extract_module_id noMarkerZip.access = none ∧
    callsFor (mainRun worldMixed) noMarkerZip.name = [] :=
  missing_marker_skipped worldMixed noMarkerZip
    [⟨modulePropPath, Except.ok "id=com.example.bad\n"⟩]
    (by rfl) (by decide) (by decide) (by rfl) (Or.inl (by rfl))

/-- C8: an archive with both markers but no `module.prop` entry yields no
identifier, is reported with the corresponding warning, and the registrar is
never invoked for it. -/
theorem missing_module_prop_skipped (w : World) (f : ZipFile)
    (es : List ZipEntry)
    (hdir : w.localExists = true)
    (hmem : f ∈ selectedZips w)
    (hnodup : ((selectedZips w).map ZipFile.name).Nodup)
    (hacc : f.access = ZipAccess.entries es)
    (hm1 : (namelist es).contains updaterScriptPath = true)
    (hm2 : (namelist es).contains updateBinaryPath = true)
    (hmiss : (namelist es).contains modulePropPath = false) :
    extract_module_id f.access = none ∧
    extract_warnings f.name f.access =
      ["Warning: " ++ f.name ++ " does not contain module.prop"] ∧
    callsFor (mainRun w) f.name = [] := by
  have hex : extract_module_id f.access = none := by
    rw [hacc]
    exact extract_entries_none_cases (Or.inr (Or.inr hmiss))
  refine ⟨hex, ?_, ?_⟩
  · rw [hacc, extract_warnings_entries, hm1, hm2, hmiss]
    rw [if_neg (by simp), if_pos (by simp)]
  · rw [mainRun_callsFor_of_mem hdir hmem hnodup, hex]

theorem missing_module_prop_skipped_witness :
    extract_module_id noPropZip.access = none ∧
    extract_warnings noPropZip.name noPropZip.access =
      ["Warning: " ++ noPropZip.name ++ " does not contain module.prop"] ∧
    callsFor (mainRun worldMixed) noPropZip.name = [] :=
  missing_module_prop_skipped worldMixed noPropZip
    [⟨updaterScriptPath, Except.ok "#MAGISK"⟩,
     ⟨updateBinaryPath, Except.ok "#!/sbin/sh"⟩]
    (by rfl) (by decide) (by decide) (by rfl) (by rfl) (by rfl) (by rfl)

/-- C9: any exception during archive access — a corrupt archive (open
raises) or a decode failure while reading `module.prop` — is absorbed by the
extractor: it reports one "Error reading" line carrying the underlying
message and returns the absence marker.  `extract_module_id` is a total
function of the access outcome, so no exception reaches its caller. -/
theorem archive_exception_absorbed (z : ZipAccess) (zipname e : String)
    (h : z = ZipAccess.corrupt e ∨
         ∃ es, z = ZipAccess.entries es ∧
           (namelist es).contains updaterScriptPath = true ∧
           (namelist es).contains updateBinaryPath = true ∧
           (namelist es).contains modulePropPath = true ∧
           readEntry es modulePropPath = Except.error e) :
    extract_module_id z = none ∧
    extract_warnings zipname z = ["Error reading " ++ zipname ++ ": " ++ e] := by
  rcases h with rfl | ⟨es, rfl, h1, h2, h3, hr⟩
  · exact ⟨rfl, rfl⟩
  · constructor
    · rw [extract_module_id_entries, h1, h2, h3]
      rw [if_neg (by simp), if_neg (by simp), hr]
    · rw [extract_warnings_entries, h1, h2, h3]
      rw [if_neg (by simp), if_neg (by simp), hr]

theorem archive_exception_absorbed_witness :
    extract_module_id (ZipAccess.corrupt "File is not a zip file") = none ∧
    extract_warnings "corrupt.zip" (ZipAccess.corrupt "File is not a zip file") =
      ["Error reading " ++ "corrupt.zip" ++ ": " ++ "File is not a zip file"] :=
  archive_exception_absorbed (ZipAccess.corrupt "File is not a zip file")
    "corrupt.zip" "File is not a zip file" (Or.inl rfl)

/-- C10: the scanner's pattern `*.zip` matches exactly the names ending in
the literal lowercase suffix `.zip`; an entry whose name does not carry that
suffix (e.g. `.ZIP`) is not selected and the registrar is never invoked for
it. -/
theorem scanner_selects_lowercase_zip (w : World) (f : ZipFile)
    (_hmem : f ∈ w.localFiles)
    (hcase : ¬ (".zip".data <:+ f.name.data)) :
    (∀ n : String, globZipMatch n = true ↔ ".zip".data <:+ n.data) ∧
    f ∉ selectedZips w ∧
    callsFor (mainRun w) f.name = [] := by
  refine ⟨globZipMatch_iff, ?_, ?_⟩
  · intro hf
    have hgm : globZipMatch f.name = true := (List.mem_filter.mp hf).2
    exact hcase ((globZipMatch_iff f.name).mp hgm)
  · apply mainRun_callsFor_nil
    intro g hg hcontra
    have hgm : globZipMatch g.name = true := (List.mem_filter.mp hg).2
    rw [hcontra] at hgm
    exact hcase ((globZipMatch_iff f.name).mp hgm)

theorem scanner_selects_lowercase_zip_witness :
    (∀ n : String, globZipMatch n = true ↔ ".zip".data <:+ n.data) ∧
    upperCaseZip ∉ selectedZips worldMixed ∧
    callsFor (mainRun worldMixed) upperCaseZip.name = [] :=
  scanner_selects_lowercase_zip worldMixed upperCaseZip (by decide) (by decide)
